import Mathlib

/-!
Verification of the tool-calling MCP server/client pair.

The server side (src/server.ts) contributes: the workspace path guard
`safePath`, the SQL dispatcher inside the `query_database` tool, the
`fetch_url` truncation logic and the `run_code` temp-file lifecycle.
The client side (src/client.ts) contributes the agent loop `processQuery`.
The seeder (src/seed.ts) contributes `seedDatabase`.

JavaScript string primitives are embedded as character-list operations:
`trimStart` becomes `trimStartStr`, `toUpperCase` becomes `upperStr`,
`startsWith` becomes `strStartsWith`, `slice(0, n)` becomes `takeStr`,
`trim` becomes `trimStr`, and `Array.prototype.join` becomes `joinWith`.
Node's `path.resolve` (lexical resolution of `.` and `..` segments against
an absolute root, POSIX separator) is embedded as `pathResolve`.
-/

/-- Embedding of JavaScript `s.startsWith(p)`. -/
def strStartsWith (s p : String) : Bool :=
  List.isPrefixOf p.toList s.toList

/-- Embedding of JavaScript `s.trimStart()`: drop leading whitespace. -/
def trimStartStr (s : String) : String :=
  String.mk (s.toList.dropWhile Char.isWhitespace)

/-- Embedding of JavaScript `s.trim()`: drop whitespace at both ends. -/
def trimStr (s : String) : String :=
  String.mk (((s.toList.dropWhile Char.isWhitespace).reverse.dropWhile Char.isWhitespace).reverse)

/-- Embedding of JavaScript `s.toUpperCase()` (ASCII letters). -/
def upperStr (s : String) : String :=
  String.mk (s.toList.map Char.toUpper)

/-- Embedding of JavaScript `s.slice(0, n)`. -/
def takeStr (s : String) (n : Nat) : String :=
  String.mk (s.toList.take n)

/-- Split a character list at `/` separators, keeping empty segments,
mirroring `"a/b".split("/")` semantics used to model path segmentation. -/
def splitSlashAux : List Char → List Char → List String
  | [], acc => [String.mk acc.reverse]
  | c :: cs, acc =>
    if c = '/' then String.mk acc.reverse :: splitSlashAux cs []
    else splitSlashAux cs (c :: acc)

/-- Split a string into its `/`-separated segments. -/
def splitOnSlash (s : String) : List String :=
  splitSlashAux s.toList []

/-- Embedding of `Array.prototype.join(sep)`. -/
def joinWith (sep : String) : List String → String
  | [] => ""
  | [s] => s
  | s :: rest => s ++ sep ++ joinWith sep rest

/-- Lexical normalisation of path segments as Node `path.resolve` performs
it: empty and `.` segments vanish, `..` removes the previous segment (and
is a no-op at the root). -/
def normalizeSegs (segs : List String) : List String :=
  segs.foldl
    (fun acc seg =>
      if seg = "" ∨ seg = "." then acc
      else if seg = ".." then acc.dropLast
      else acc ++ [seg])
    []

/-- Embedding of Node `path.resolve(root, userPath)` for an absolute POSIX
`root`: an absolute `userPath` stands alone, a relative one is joined onto
`root`, and the result is lexically normalised. -/
def pathResolve (root userPath : String) : String :=
  let joined := if strStartsWith userPath "/" then userPath else root ++ "/" ++ userPath
  "/" ++ joinWith "/" (normalizeSegs (splitOnSlash joined))

/-- Embedding of `safePath` (src/server.ts lines 28-34): resolve the
user-supplied path against the workspace root and reject it unless the
resolution equals the root or extends the root past a path separator. -/
def safePath (root userPath : String) : Except String String :=
  let resolved := pathResolve root userPath
  if !(strStartsWith resolved (root ++ "/")) && resolved != root then
    Except.error ("Path escapes workspace: " ++ userPath)
  else
    Except.ok resolved

/-- Statement classes of the statement-class dispatcher (spec section 4.4). -/
inductive StmtClass where
  | READ
  | MUTATE
  | SCRIPT
deriving DecidableEq, Repr

/-- Embedding of the statement-class test inside `query_database`
(src/server.ts lines 302-303): trim leading whitespace, upper-case, and
test the first keyword against the read-only allow-list. The source has
no multi-statement branch, so `SCRIPT` is never produced. -/
def classify (sql : String) : StmtClass :=
  let trimmed := upperStr (trimStartStr sql)
  if strStartsWith trimmed "SELECT" || strStartsWith trimmed "PRAGMA" ||
      strStartsWith trimmed "EXPLAIN" then
    StmtClass.READ
  else
    StmtClass.MUTATE

/-- A result row, as an ordered mapping from column names to rendered
values. -/
abbrev Row := List (String × String)

/-- The affected-row summary `better-sqlite3` returns from `.run()`. -/
structure RunInfo where
  changes : Nat
  lastInsertRowid : Int
deriving DecidableEq, Repr

/-- Observable outcome of one `query_database` invocation, before JSON
rendering: rows from `.all()`, the change summary from `.run()`, or the
caught backend error. -/
inductive QueryOutcome where
  | rows (rs : List Row)
  | runInfo (r : RunInfo)
  | sqlError (msg : String)
deriving DecidableEq, Repr

/-- Embedding of the `query_database` handler body (src/server.ts lines
299-324), parameterised by the backend outcomes of `.all()` and `.run()`:
read-classified statements run in row-returning mode, everything else in
affected-row mode, and a thrown backend error becomes a caught SQL error. -/
def query_database (bAll : String → Except String (List Row))
    (bRun : String → Except String RunInfo) (sql : String) : QueryOutcome :=
  if classify sql = StmtClass.READ then
    match bAll sql with
    | Except.ok rs => QueryOutcome.rows rs
    | Except.error m => QueryOutcome.sqlError ("SQL Error: " ++ m)
  else
    match bRun sql with
    | Except.ok r => QueryOutcome.runInfo r
    | Except.error m => QueryOutcome.sqlError ("SQL Error: " ++ m)

/-- One content segment of a capability result envelope: a tagged kind
(always "text" for the capabilities modelled here) and an optional text
payload. -/
structure Seg where
  kind : String
  text : Option String
deriving DecidableEq, Repr

/-- The uniform result envelope every capability handler returns. -/
structure Envelope where
  content : List Seg
  isError : Bool
deriving DecidableEq, Repr

/-- The part of an HTTP response observed by `fetch_url`. -/
structure HttpResponse where
  ok : Bool
  status : Nat
  statusText : String
  body : String
deriving DecidableEq, Repr

/-- Embedding of the `fetch_url` handler body (src/server.ts lines
95-108), parameterised by the fetched response: a non-ok status yields an
error envelope naming the status, a body over 5000 characters is cut to
its first 5000 characters plus a fixed truncation marker, and a shorter
body is returned verbatim. -/
def fetch_url (res : HttpResponse) : Envelope :=
  if !res.ok then
    Envelope.mk [Seg.mk "text" (some ("HTTP " ++ toString res.status ++ " " ++ res.statusText))] true
  else
    let body := res.body
    let body := if body.length > 5000 then takeStr body 5000 ++ "\n... (truncated)" else body
    Envelope.mk [Seg.mk "text" (some body)] false

/-- The filesystem state observed by the `run_code` temp-file lifecycle:
the set of temporary script files currently existing. -/
structure FsState where
  tmpFiles : List String
deriving DecidableEq, Repr

/-- `fs.writeFile` creating the temporary script file. -/
def FsState.writeFile (fs : FsState) (f : String) : FsState :=
  FsState.mk (f :: fs.tmpFiles)

/-- `fs.unlink(f).catch(() => \x7b\x7d)`: remove the file; a failure on an
absent file is swallowed, so on the state model this is a plain removal. -/
def FsState.unlink (fs : FsState) (f : String) : FsState :=
  FsState.mk (fs.tmpFiles.filter (fun g => g != f))

/-- Embedding of the `run_code` handler body (src/server.ts lines
219-240), parameterised by the outcome of writing the temp file and the
outcome of the subprocess call (a timeout surfaces as the subprocess
call's rejection). The try/catch/finally structure appears as: the catch
arm turns either failure into an error envelope, and the finally arm
unlinks the temp file on every path. -/
def run_code (tmpFile : String) (writeOutcome : Except String Unit)
    (execOutcome : Except String (String × String)) (fs : FsState) :
    Envelope × FsState :=
  match writeOutcome with
  | Except.error msg =>
    (Envelope.mk [Seg.mk "text" (some ("Execution error: " ++ msg))] true,
      fs.unlink tmpFile)
  | Except.ok _ =>
    let fs1 := fs.writeFile tmpFile
    match execOutcome with
    | Except.ok (stdout, stderr) =>
      let output := trimStr (stdout ++ stderr)
      (Envelope.mk [Seg.mk "text" (some (if output = "" then "(no output)" else output))] false,
        fs1.unlink tmpFile)
    | Except.error msg =>
      (Envelope.mk [Seg.mk "text" (some ("Execution error: " ++ msg))] true,
        fs1.unlink tmpFile)

/-- A row of the seeded `books` table (src/seed.ts). -/
structure BookRow where
  title : String
  author : String
  year : Int
  genre : String
deriving DecidableEq, Repr

/-- A row of the seeded `users` table (src/seed.ts). -/
structure UserRow where
  name : String
  email : String
  favorite_genre : String
deriving DecidableEq, Repr

/-- A SQLite table with an AUTOINCREMENT sequence counter and its rows,
each row carrying its assigned integer id. -/
structure Table (α : Type) where
  seq : Nat
  rows : List (Nat × α)
deriving DecidableEq, Repr

/-- A freshly created (empty) table. -/
def Table.emptyTable {α : Type} : Table α :=
  Table.mk 0 []

/-- A single `INSERT`, assigning the next AUTOINCREMENT id. -/
def insertRow {α : Type} (t : Table α) (a : α) : Table α :=
  Table.mk (t.seq + 1) (t.rows ++ [(t.seq + 1, a)])

/-- The transaction inserting a list of rows in order. -/
def insertMany {α : Type} (t : Table α) (as : List α) : Table α :=
  as.foldl insertRow t

/-- The database state the seeder observes: each table either absent or
present. -/
structure Db where
  books : Option (Table BookRow)
  users : Option (Table UserRow)
deriving DecidableEq, Repr

/-- `CREATE TABLE IF NOT EXISTS`: keep an existing table, create an empty
one otherwise. -/
def createIfAbsent {α : Type} (t : Option (Table α)) : Table α :=
  t.getD Table.emptyTable

/-- The 8 seed books of src/seed.ts. -/
def seedBooks : List BookRow :=
  [BookRow.mk "To Kill a Mockingbird" "Harper Lee" 1960 "Fiction",
   BookRow.mk "1984" "George Orwell" 1949 "Dystopian",
   BookRow.mk "The Great Gatsby" "F. Scott Fitzgerald" 1925 "Fiction",
   BookRow.mk "Neuromancer" "William Gibson" 1984 "Science Fiction",
   BookRow.mk "The Hobbit" "J.R.R. Tolkien" 1937 "Fantasy",
   BookRow.mk "Pride and Prejudice" "Jane Austen" 1813 "Romance",
   BookRow.mk "The Left Hand of Darkness" "Ursula K. Le Guin" 1969 "Science Fiction",
   BookRow.mk "Brave New World" "Aldous Huxley" 1932 "Dystopian"]

/-- The 5 seed users of src/seed.ts. -/
def seedUsers : List UserRow :=
  [UserRow.mk "Alice Johnson" "alice@example.com" "Science Fiction",
   UserRow.mk "Bob Smith" "bob@example.com" "Fiction",
   UserRow.mk "Carol Williams" "carol@example.com" "Fantasy",
   UserRow.mk "Dave Brown" "dave@example.com" "Dystopian",
   UserRow.mk "Eve Davis" "eve@example.com" "Romance"]

/-- The per-table step of the seeder: create the table if absent, then
insert the seed rows only when the table holds zero rows. -/
def seedTable {α : Type} (t : Option (Table α)) (seedRows : List α) : Table α :=
  let tt := createIfAbsent t
  if tt.rows.length = 0 then insertMany tt seedRows else tt

/-- Embedding of `seedDatabase` (src/seed.ts): apply the per-table step
to the `books` table with the 8 seed books and to the `users` table with
the 5 seed users (the two steps touch disjoint tables). -/
def seedDatabase (db : Db) : Db :=
  Db.mk (some (seedTable db.books seedBooks)) (some (seedTable db.users seedUsers))

/-- A tool-invocation request block emitted by the oracle (model). -/
structure ToolUseBlock where
  id : String
  name : String
  input : List (String × String)
deriving DecidableEq, Repr

/-- One content block of an oracle response: a text segment or a
tool-invocation request. -/
inductive ContentBlock where
  | text (s : String)
  | toolUse (t : ToolUseBlock)
deriving DecidableEq, Repr

/-- The oracle's stop condition: `endTurn` and `toolUse` are tested
explicitly by the loop, every other value falls through to the final
best-effort return. -/
inductive StopReason where
  | endTurn
  | toolUse
  | other
deriving DecidableEq, Repr

/-- One oracle response: a stop condition and the response content. -/
structure OracleResponse where
  stop_reason : StopReason
  content : List ContentBlock
deriving Repr

/-- One tool-result entry sent back to the oracle. -/
structure ToolResultBlock where
  tool_use_id : String
  content : String
  is_error : Bool
deriving DecidableEq, Repr

/-- A conversation message: the initial user text, an assistant turn
holding the oracle's raw content, or the tool-results message answering
the preceding assistant turn. -/
inductive Message where
  | userText (s : String)
  | assistantTurn (content : List ContentBlock)
  | toolResults (results : List ToolResultBlock)
deriving DecidableEq, Repr

/-- Flattening of an MCP result envelope into the tool-result text
(src/client.ts lines 113-117): keep the text segments, defaulting a
missing payload to the empty string, and join with newlines. -/
def resultText (e : Envelope) : String :=
  joinWith "\n" ((e.content.filter (fun c => c.kind == "text")).map (fun c => c.text.getD ""))

/-- Build the tool-result entry for one request from the invoker's
envelope (src/client.ts lines 121-126): it carries the originating
request id and the envelope's error flag. -/
def mkToolResult (tu : ToolUseBlock) (e : Envelope) : ToolResultBlock :=
  ToolResultBlock.mk tu.id (resultText e) e.isError

/-- Sequential dispatch of one turn's tool-invocation requests
(src/client.ts lines 105-127): each request is passed to the invoker in
emission order, threading the invoker's state, and the results are
collected in the same order. -/
def dispatchTools {σ : Type} (invoke : σ → ToolUseBlock → σ × Envelope) :
    σ → List ToolUseBlock → σ × List ToolResultBlock
  | env, [] => (env, [])
  | env, tu :: rest =>
    let p := invoke env tu
    let q := dispatchTools invoke p.1 rest
    (q.1, mkToolResult tu p.2 :: q.2)

/-- Wrap an invoker so that its state also records, in order, every
request it is called on: the call log makes the sequential one-at-a-time
dispatch order observable. -/
def loggingInvoke {σ : Type} (invoke : σ → ToolUseBlock → σ × Envelope) :
    σ × List ToolUseBlock → ToolUseBlock → (σ × List ToolUseBlock) × Envelope :=
  fun p tu =>
    let r := invoke p.1 tu
    ((r.1, p.2 ++ [tu]), r.2)

/-- The text segments of a response content list (src/client.ts lines
85-87). -/
def textBlocksOf (c : List ContentBlock) : List String :=
  c.filterMap (fun b =>
    match b with
    | ContentBlock.text s => some s
    | ContentBlock.toolUse _ => none)

/-- The tool-invocation request blocks of a response content list
(src/client.ts lines 96-98). -/
def toolUsesOf (c : List ContentBlock) : List ToolUseBlock :=
  c.filterMap (fun b =>
    match b with
    | ContentBlock.text _ => none
    | ContentBlock.toolUse t => some t)

/-- JavaScript `texts.join("\n") || fallback`: the joined text, or the
fallback when the join is empty. -/
def joinTextOr (texts : List String) (fallback : String) : String :=
  let j := joinWith "\n" texts
  if j = "" then fallback else j

/-- Observable outcome of the agent loop: the returned text, the final
conversation transcript, the number of oracle calls performed, and the
invoker's final state. -/
structure LoopOut (σ : Type) where
  result : String
  messages : List Message
  oracleCalls : Nat
  finalEnv : σ

/-- Embedding of the agent loop body of `processQuery` (src/client.ts
lines 72-137), with the remaining iteration budget as fuel: each
iteration calls the oracle on the current transcript; `endTurn` returns
the joined text (or its fallback), `toolUse` appends the assistant turn,
dispatches the requests sequentially, appends the single tool-results
message and continues, and any other stop condition returns the joined
text with the other fallback. Exhausted fuel returns the fixed
iteration-limit string. -/
def processQueryAux {σ : Type} (oracle : List Message → OracleResponse)
    (invoke : σ → ToolUseBlock → σ × Envelope) :
    Nat → σ → List Message → LoopOut σ
  | 0, env, messages => LoopOut.mk "(reached max iterations)" messages 0 env
  | n + 1, env, messages =>
    let response := oracle messages
    let textBlocks := textBlocksOf response.content
    match response.stop_reason with
    | StopReason.endTurn =>
      LoopOut.mk (joinTextOr textBlocks "(no text response)") messages 1 env
    | StopReason.toolUse =>
      let toolUseBlocks := toolUsesOf response.content
      let messages1 := messages ++ [Message.assistantTurn response.content]
      let pr := dispatchTools invoke env toolUseBlocks
      let messages2 := messages1 ++ [Message.toolResults pr.2]
      let out := processQueryAux oracle invoke n pr.1 messages2
      LoopOut.mk out.result out.messages (out.oracleCalls + 1) out.finalEnv
    | StopReason.other =>
      LoopOut.mk (joinTextOr textBlocks "(unexpected stop)") messages 1 env

/-- The fixed iteration ceiling of the agent loop (src/client.ts line
72). -/
def MAX_ITERATIONS : Nat := 10

/-- Embedding of `processQuery` (src/client.ts lines 65-138): run the
loop from the single user message with the default iteration budget. -/
def processQuery {σ : Type} (oracle : List Message → OracleResponse)
    (invoke : σ → ToolUseBlock → σ × Envelope) (env : σ) (userQuery : String) :
    LoopOut σ :=
  processQueryAux oracle invoke MAX_ITERATIONS env [Message.userText userQuery]

/-- The tool-results entries answer the requests of an assistant turn
exactly: same ids, same order, same count. -/
def resultsMatch (c : List ContentBlock) (rs : List ToolResultBlock) : Bool :=
  rs.map (fun r => r.tool_use_id) == (toolUsesOf c).map (fun t => t.id)

/-- A transcript is turn well-formed when every assistant turn is
immediately followed by one tool-results message answering exactly its
requests. -/
def wellFormedTurns : List Message → Bool
  | [] => true
  | Message.userText _ :: rest => wellFormedTurns rest
  | Message.toolResults _ :: rest => wellFormedTurns rest
  | Message.assistantTurn c :: Message.toolResults rs :: rest =>
    resultsMatch c rs && wellFormedTurns rest
  | Message.assistantTurn _ :: _ => false

/-- A minimal invoker for concrete runs: stateless, always answering with
one successful text segment. -/
def unitInvoke : Unit → ToolUseBlock → Unit × Envelope :=
  fun u _ => (u, Envelope.mk [Seg.mk "text" (some "ok")] false)

/-- An oracle that requests a tool on every call and never ends the
conversation. -/
def constToolOracle : List Message → OracleResponse :=
  fun _ =>
    OracleResponse.mk StopReason.toolUse
      [ContentBlock.toolUse (ToolUseBlock.mk "toolu_01" "read_file" [("path", "a.txt")])]

/-- The mutating request of the two-turn example conversation. -/
def duneRequest : ToolUseBlock :=
  ToolUseBlock.mk "toolu_01" "query_database" [("sql", "INSERT INTO books(title) VALUES (9)")]

/-- A mocked oracle for the two-turn example conversation: first a tool
request, then an end turn with the text "Added Dune.". -/
def duneOracle : List Message → OracleResponse :=
  fun ms =>
    if ms.length ≤ 1 then
      OracleResponse.mk StopReason.toolUse [ContentBlock.toolUse duneRequest]
    else
      OracleResponse.mk StopReason.endTurn [ContentBlock.text "Added Dune."]

/-- The mocked backend answer for the example conversation: one changed
row, inserted id 9. -/
def duneInvoke : Unit → ToolUseBlock → Unit × Envelope :=
  fun u _ => (u, Envelope.mk [Seg.mk "text" (some "changes 1 lastInsertRowid 9")] false)

/-- An oracle that answers with an unrecognised stop condition and no
content at all. -/
def otherEmptyOracle : List Message → OracleResponse :=
  fun _ => OracleResponse.mk StopReason.other []

/-- An oracle that ends immediately with no content at all. -/
def endEmptyOracle : List Message → OracleResponse :=
  fun _ => OracleResponse.mk StopReason.endTurn []

/-- An oracle that answers with an unrecognised stop condition but some
text content. -/
def otherTextOracle : List Message → OracleResponse :=
  fun _ => OracleResponse.mk StopReason.other [ContentBlock.text "partial answer"]

/-- Claim C1: the path guard accepts a user path exactly when its
resolution against the root equals the root or begins with the root
followed by the path separator; an accepted call returns the full
resolution (never a partial one), and a rejection carries the original
user path in its error message. -/
theorem safePath_separator_qualified_guard :
    ∀ (root userPath : String),
      ((safePath root userPath).isOk = true ↔
        (pathResolve root userPath = root ∨
          strStartsWith (pathResolve root userPath) (root ++ "/") = true))
      ∧ (∀ r, safePath root userPath = Except.ok r → r = pathResolve root userPath)
      ∧ ((safePath root userPath).isOk = false →
          safePath root userPath = Except.error ("Path escapes workspace: " ++ userPath)) := by
  intro root userPath
  unfold safePath
  by_cases hsw : strStartsWith (pathResolve root userPath) (root ++ "/") = true
  · simp [hsw, Except.isOk, Except.toBool]
  · by_cases heq : pathResolve root userPath = root
    · simp [heq, Except.isOk, Except.toBool]
    · have hne : (pathResolve root userPath != root) = true := by
        simp [bne_iff_ne, heq]
      have hsw' : strStartsWith (pathResolve root userPath) (root ++ "/") = false := by
        simpa using hsw
      simp [hsw', hne, heq, Except.isOk, Except.toBool]

/-- Claim C1 witness: a sibling directory whose name merely extends the
root name is rejected with the original user path in the error, while a
plain relative file is accepted. -/
theorem safePath_separator_qualified_guard_witness :
    safePath "/a/workspace" "../workspace2" =
      Except.error ("Path escapes workspace: " ++ "../workspace2") ∧
    (safePath "/a/workspace" "notes.txt").isOk = true := by
  constructor
  · exact (safePath_separator_qualified_guard "/a/workspace" "../workspace2").2.2 (by decide)
  · exact ((safePath_separator_qualified_guard "/a/workspace" "notes.txt").1).mpr
      (Or.inr (by decide))

/-- Claim C2: the dispatcher inside `query_database` has no SCRIPT class
at all; in particular the multi-statement input of the claim is classified
by its first keyword as MUTATE, not SCRIPT. (The repository's own
architecture document describes a multi-statement branch the handler
does not implement.) -/
theorem query_database_multi_statement_not_script :
    classify "INSERT INTO t VALUES(1); SELECT 1" = StmtClass.MUTATE
    ∧ ∀ sql, classify sql = StmtClass.READ ∨ classify sql = StmtClass.MUTATE := by
  constructor
  · decide
  · intro sql
    simp only [classify]
    split
    · exact Or.inl rfl
    · exact Or.inr rfl

/-- Claim C5: a statement is classified READ exactly when its
whitespace-trimmed upper-cased text begins with a keyword of the
allow-list, READ statements run in row-returning mode, every other
statement runs in affected-row mode, and the three concrete example
statements classify as the spec states. -/
theorem query_database_first_keyword_dispatch :
    ∀ (bAll : String → Except String (List Row)) (bRun : String → Except String RunInfo)
      (sql : String),
      (classify sql = StmtClass.READ →
        query_database bAll bRun sql =
          match bAll sql with
          | Except.ok rs => QueryOutcome.rows rs
          | Except.error m => QueryOutcome.sqlError ("SQL Error: " ++ m))
      ∧ (classify sql = StmtClass.MUTATE →
        query_database bAll bRun sql =
          match bRun sql with
          | Except.ok r => QueryOutcome.runInfo r
          | Except.error m => QueryOutcome.sqlError ("SQL Error: " ++ m))
      ∧ (classify sql = StmtClass.READ ↔
          (strStartsWith (upperStr (trimStartStr sql)) "SELECT" = true ∨
            strStartsWith (upperStr (trimStartStr sql)) "PRAGMA" = true ∨
            strStartsWith (upperStr (trimStartStr sql)) "EXPLAIN" = true))
      ∧ classify "SELECT 1" = StmtClass.READ
      ∧ classify "  select * from t" = StmtClass.READ
      ∧ classify "INSERT INTO t VALUES (1)" = StmtClass.MUTATE := by
  intro bAll bRun sql
  refine ⟨?_, ?_, ?_, by decide, by decide, by decide⟩
  · intro h
    simp [query_database, h]
  · intro h
    simp [query_database, h]
  · simp only [classify]
    split
    · rename_i hcond
      simp only [Bool.or_eq_true] at hcond
      exact iff_of_true rfl (by tauto)
    · rename_i hcond
      refine iff_of_false (by simp) ?_
      intro hd
      apply hcond
      simp only [Bool.or_eq_true]
      tauto

/-- The mocked row-returning backend used by the dispatch witness. -/
def allConst : String → Except String (List Row) :=
  fun _ => Except.ok [[("x", "1")]]

/-- The mocked affected-row backend used by the dispatch witness. -/
def runConst : String → Except String RunInfo :=
  fun _ => Except.ok (RunInfo.mk 1 9)

/-- Claim C5 witness: the example statements run through the matching
execution modes against mocked backends. -/
theorem query_database_first_keyword_dispatch_witness :
    query_database allConst runConst "SELECT 1" = QueryOutcome.rows [[("x", "1")]]
    ∧ query_database allConst runConst "INSERT INTO t VALUES (1)" =
        QueryOutcome.runInfo (RunInfo.mk 1 9) := by
  constructor
  · have h := (query_database_first_keyword_dispatch allConst runConst "SELECT 1").1 (by decide)
    simpa [allConst] using h
  · have h := (query_database_first_keyword_dispatch allConst runConst
      "INSERT INTO t VALUES (1)").2.1 (by decide)
    simpa [runConst] using h

/-- A filtered list never again contains the removed element. -/
theorem contains_filter_bne (l : List String) (f : String) :
    ((l.filter (fun g => g != f)).contains f) = false := by
  induction l with
  | nil => rfl
  | cons g rest ih =>
    by_cases h : g = f
    · simp [List.filter_cons, h, ih]
    · simp [List.filter_cons, h, ih, bne_iff_ne, List.contains_cons, beq_iff_eq]
      exact fun hh => h hh.symm

/-- Claim C8: on every path of `run_code` — write failure, subprocess
failure (including timeout) and success — the temporary script file is
absent from the final filesystem state; the envelope is error-free only
on full success, and a subprocess failure yields the caught error
envelope instead of a propagated exception. -/
theorem run_code_cleanup_and_error_envelope :
    ∀ (tmpFile : String) (writeOutcome : Except String Unit)
      (execOutcome : Except String (String × String)) (fs : FsState),
      ((run_code tmpFile writeOutcome execOutcome fs).2.tmpFiles.contains tmpFile = false)
      ∧ ((run_code tmpFile writeOutcome execOutcome fs).1.isError = false →
          ∃ out errS, execOutcome = Except.ok (out, errS) ∧ writeOutcome = Except.ok ())
      ∧ (∀ msg, execOutcome = Except.error msg → writeOutcome = Except.ok () →
          (run_code tmpFile writeOutcome execOutcome fs).1 =
            Envelope.mk [Seg.mk "text" (some ("Execution error: " ++ msg))] true) := by
  intro tmpFile writeOutcome execOutcome fs
  refine ⟨?_, ?_, ?_⟩
  · cases writeOutcome with
    | error m => simp [run_code, FsState.unlink, contains_filter_bne]
    | ok u =>
      cases execOutcome with
      | ok p => simp [run_code, FsState.unlink, contains_filter_bne]
      | error m => simp [run_code, FsState.unlink, contains_filter_bne]
  · intro hok
    cases writeOutcome with
    | error m => simp [run_code] at hok
    | ok u =>
      cases execOutcome with
      | ok p => exact ⟨p.1, p.2, rfl, rfl⟩
      | error m => simp [run_code] at hok
  · intro msg hexec hwrite
    subst hexec
    subst hwrite
    simp [run_code]

/-- Claim C8 witness: a timed-out subprocess call produces the caught
error envelope and leaves no temporary file behind. -/
theorem run_code_cleanup_and_error_envelope_witness :
    (run_code "/ws/.tmp/u1.py" (Except.ok ())
        (Except.error "timed out") (FsState.mk ["other.py"])).1 =
      Envelope.mk [Seg.mk "text" (some ("Execution error: " ++ "timed out"))] true
    ∧ (run_code "/ws/.tmp/u1.py" (Except.ok ())
        (Except.error "timed out") (FsState.mk ["other.py"])).2.tmpFiles.contains
        "/ws/.tmp/u1.py" = false := by
  constructor
  · exact (run_code_cleanup_and_error_envelope "/ws/.tmp/u1.py" (Except.ok ())
      (Except.error "timed out") (FsState.mk ["other.py"])).2.2 "timed out" rfl rfl
  · exact (run_code_cleanup_and_error_envelope "/ws/.tmp/u1.py" (Except.ok ())
      (Except.error "timed out") (FsState.mk ["other.py"])).1

/-- Inserting a list of rows grows the table by the list's length. -/
theorem insertMany_rows_length {α : Type} (as : List α) :
    ∀ t : Table α, (insertMany t as).rows.length = t.rows.length + as.length := by
  induction as with
  | nil => intro t; rfl
  | cons a rest ih =>
    intro t
    have h := ih (insertRow t a)
    simp only [insertMany, List.foldl_cons] at *
    rw [h]
    simp [insertRow]
    omega

/-- A seeded table is never empty, so a second seeding pass skips its
insert block. -/
theorem seedTable_rows_ne_zero {α : Type} (t : Option (Table α)) (seedRows : List α)
    (h : seedRows.length ≠ 0) : (seedTable t seedRows).rows.length ≠ 0 := by
  simp only [seedTable]
  by_cases h0 : (createIfAbsent t).rows.length = 0
  · rw [if_pos h0, insertMany_rows_length]
    omega
  · rw [if_neg h0]
    exact h0

/-- Seeding an already-seeded table changes nothing. -/
theorem seedTable_idem {α : Type} (t : Option (Table α)) (seedRows : List α)
    (h : seedRows.length ≠ 0) :
    seedTable (some (seedTable t seedRows)) seedRows = seedTable t seedRows := by
  have hlen := seedTable_rows_ne_zero t seedRows h
  conv_lhs => rw [seedTable.eq_def]
  simp only [createIfAbsent, Option.getD_some]
  rw [if_neg hlen]

set_option maxRecDepth 8192

/-- Claim C9: seeding is idempotent on every database state — a second
run changes nothing — and on a fresh database it inserts exactly 8 books
and 5 users. -/
theorem seedDatabase_idempotent :
    (∀ db : Db, seedDatabase (seedDatabase db) = seedDatabase db)
    ∧ ((seedDatabase (Db.mk none none)).books.map (fun t => t.rows.length) = some 8)
    ∧ ((seedDatabase (Db.mk none none)).users.map (fun t => t.rows.length) = some 5) := by
  refine ⟨?_, by decide, by decide⟩
  intro db
  simp only [seedDatabase]
  rw [seedTable_idem db.books seedBooks (by decide),
    seedTable_idem db.users seedUsers (by decide)]

/-- Claim C10: a successful response of at most 5000 characters is
returned verbatim, a longer one is cut to its first 5000 characters plus
the fixed truncation marker, and a non-ok status yields an error envelope
whose text names the status code. -/
theorem fetch_url_truncation_and_status :
    ∀ res : HttpResponse,
      (res.ok = true → res.body.length ≤ 5000 →
        fetch_url res = Envelope.mk [Seg.mk "text" (some res.body)] false)
      ∧ (res.ok = true → res.body.length > 5000 →
        fetch_url res =
          Envelope.mk [Seg.mk "text" (some (takeStr res.body 5000 ++ "\n... (truncated)"))] false)
      ∧ (res.ok = false →
        fetch_url res =
          Envelope.mk
            [Seg.mk "text" (some ("HTTP " ++ toString res.status ++ " " ++ res.statusText))]
            true) := by
  intro res
  refine ⟨?_, ?_, ?_⟩
  · intro hok hlen
    simp [fetch_url, hok, Nat.not_lt.mpr hlen]
  · intro hok hlen
    simp [fetch_url, hok, hlen]
  · intro hok
    simp [fetch_url, hok]

/-- A short successful response for the fetch witness. -/
def shortResponse : HttpResponse := HttpResponse.mk true 200 "OK" "hello"

/-- A 5001-character body, one character past the truncation threshold. -/
def longBody : String := String.mk (List.replicate 5001 'a')

/-- A successful response whose body exceeds the threshold. -/
def longResponse : HttpResponse := HttpResponse.mk true 200 "OK" longBody

/-- A failed response for the fetch witness. -/
def notFoundResponse : HttpResponse := HttpResponse.mk false 404 "Not Found" ""

/-- Claim C10 witness: the three branches at concrete responses. -/
theorem fetch_url_truncation_and_status_witness :
    fetch_url shortResponse = Envelope.mk [Seg.mk "text" (some "hello")] false
    ∧ fetch_url longResponse =
        Envelope.mk [Seg.mk "text" (some (takeStr longBody 5000 ++ "\n... (truncated)"))] false
    ∧ fetch_url notFoundResponse =
        Envelope.mk [Seg.mk "text" (some ("HTTP " ++ toString (404 : Nat) ++ " " ++ "Not Found"))]
          true := by
  have hlen : longBody.length = 5001 := by
    show (List.replicate 5001 'a').length = 5001
    exact List.length_replicate 5001 'a'
  refine ⟨?_, ?_, ?_⟩
  · exact (fetch_url_truncation_and_status shortResponse).1 rfl (by decide)
  · exact (fetch_url_truncation_and_status longResponse).2.1 rfl
      (by show 5000 < longBody.length; omega)
  · exact (fetch_url_truncation_and_status notFoundResponse).2.2 rfl

/-- Each dispatched turn's results carry the originating request ids in
emission order: one result per request, same relative order. -/
theorem dispatchTools_ids {σ : Type} (invoke : σ → ToolUseBlock → σ × Envelope)
    (tus : List ToolUseBlock) (env : σ) :
    ((dispatchTools invoke env tus).2).map (fun r => r.tool_use_id) =
      tus.map (fun t => t.id) := by
  induction tus generalizing env with
  | nil => rfl
  | cons tu rest ih => simp [dispatchTools, mkToolResult, ih]

/-- With a call-logging invoker, dispatching a turn appends exactly the
turn's requests to the call log, in emission order: the requests are
executed one at a time, sequentially. -/
theorem dispatchTools_log {σ : Type} (invoke : σ → ToolUseBlock → σ × Envelope)
    (tus : List ToolUseBlock) (env : σ) (lg : List ToolUseBlock) :
    ((dispatchTools (loggingInvoke invoke) (env, lg) tus).1).2 = lg ++ tus := by
  induction tus generalizing env lg with
  | nil => simp [dispatchTools]
  | cons tu rest ih =>
    simp only [dispatchTools, loggingInvoke]
    rw [ih]
    simp

/-- Appending a matched assistant-turn/tool-results pair preserves turn
well-formedness. -/
theorem wellFormedTurns_append :
    ∀ (ms : List Message) (c : List ContentBlock) (rs : List ToolResultBlock),
      wellFormedTurns ms = true → resultsMatch c rs = true →
      wellFormedTurns (ms ++ [Message.assistantTurn c, Message.toolResults rs]) = true
  | [], c, rs, _, hm => by simp [wellFormedTurns, hm]
  | Message.userText s :: rest, c, rs, h, hm => by
    simp only [List.cons_append, wellFormedTurns] at *
    exact wellFormedTurns_append rest c rs h hm
  | Message.toolResults r0 :: rest, c, rs, h, hm => by
    simp only [List.cons_append, wellFormedTurns] at *
    exact wellFormedTurns_append rest c rs h hm
  | Message.assistantTurn c0 :: Message.toolResults rs0 :: rest, c, rs, h, hm => by
    simp only [List.cons_append, wellFormedTurns, Bool.and_eq_true] at *
    exact ⟨h.1, wellFormedTurns_append rest c rs h.2 hm⟩
  | Message.assistantTurn c0 :: [], c, rs, h, hm => by
    simp [wellFormedTurns] at h
  | Message.assistantTurn c0 :: Message.userText s :: rest, c, rs, h, hm => by
    simp [wellFormedTurns] at h
  | Message.assistantTurn c0 :: Message.assistantTurn c1 :: rest, c, rs, h, hm => by
    simp [wellFormedTurns] at h

/-- The loop preserves turn well-formedness of the transcript: every
assistant turn it appends is immediately followed by its matching
tool-results message, before any further oracle call. -/
theorem processQueryAux_wft {σ : Type} (oracle : List Message → OracleResponse)
    (invoke : σ → ToolUseBlock → σ × Envelope) :
    ∀ (n : Nat) (env : σ) (ms : List Message), wellFormedTurns ms = true →
      wellFormedTurns (processQueryAux oracle invoke n env ms).messages = true := by
  intro n
  induction n with
  | zero => intro env ms h; simpa [processQueryAux] using h
  | succ n ih =>
    intro env ms h
    simp only [processQueryAux]
    cases hsr : (oracle ms).stop_reason
    · simpa using h
    · simp only []
      apply ih
      have hm : resultsMatch (oracle ms).content
          (dispatchTools invoke env (toolUsesOf (oracle ms).content)).2 = true := by
        simp [resultsMatch, dispatchTools_ids]
      have hwf := wellFormedTurns_append ms (oracle ms).content
        (dispatchTools invoke env (toolUsesOf (oracle ms).content)).2 h hm
      simpa [List.append_assoc] using hwf
    · simpa using h

/-- Claim C3: for every oracle behaviour and invoker, the final
transcript of `processQuery` is turn well-formed — each assistant turn is
immediately followed by exactly one tool-results message whose entries
carry the originating request ids, one per request, in emission order —
and dispatch within a turn is sequential: a call-logging invoker records
exactly the turn's requests in emission order. -/
theorem transcript_tool_results_invariant :
    (∀ (σ : Type) (oracle : List Message → OracleResponse)
        (invoke : σ → ToolUseBlock → σ × Envelope) (env : σ) (q : String),
        wellFormedTurns (processQuery oracle invoke env q).messages = true)
    ∧ (∀ (σ : Type) (invoke : σ → ToolUseBlock → σ × Envelope) (env : σ)
        (lg tus : List ToolUseBlock),
        ((dispatchTools (loggingInvoke invoke) (env, lg) tus).1).2 = lg ++ tus) := by
  constructor
  · intro σ oracle invoke env q
    exact processQueryAux_wft oracle invoke MAX_ITERATIONS env [Message.userText q] rfl
  · intro σ invoke env lg tus
    exact dispatchTools_log invoke tus env lg

/-- The loop calls the oracle at most once per unit of fuel. -/
theorem processQueryAux_calls_le {σ : Type} (oracle : List Message → OracleResponse)
    (invoke : σ → ToolUseBlock → σ × Envelope) :
    ∀ (n : Nat) (env : σ) (ms : List Message),
      (processQueryAux oracle invoke n env ms).oracleCalls ≤ n := by
  intro n
  induction n with
  | zero => intro env ms; simp [processQueryAux]
  | succ n ih =>
    intro env ms
    simp only [processQueryAux]
    cases hsr : (oracle ms).stop_reason
    · simp
    · simp only []
      have := ih (dispatchTools invoke env (toolUsesOf (oracle ms).content)).1
        ((ms ++ [Message.assistantTurn (oracle ms).content]) ++
          [Message.toolResults (dispatchTools invoke env (toolUsesOf (oracle ms).content)).2])
      omega
    · simp

/-- Under an oracle that always requests tools, the loop consumes its
whole fuel, one oracle call per unit, and returns the fixed
iteration-limit string. -/
theorem processQueryAux_allToolUse {σ : Type} (oracle : List Message → OracleResponse)
    (invoke : σ → ToolUseBlock → σ × Envelope)
    (h : ∀ ms, (oracle ms).stop_reason = StopReason.toolUse) :
    ∀ (n : Nat) (env : σ) (ms : List Message),
      (processQueryAux oracle invoke n env ms).result = "(reached max iterations)"
      ∧ (processQueryAux oracle invoke n env ms).oracleCalls = n := by
  intro n
  induction n with
  | zero => intro env ms; exact ⟨rfl, rfl⟩
  | succ n ih =>
    intro env ms
    simp only [processQueryAux, h ms]
    refine ⟨(ih _ _).1, ?_⟩
    simp [(ih _ _).2]

/-- Claim C4: the loop performs at most 10 oracle round trips for every
oracle behaviour, and an oracle that keeps requesting tools and never
ends exhausts the ceiling: exactly 10 calls, never an 11th, and the loop
terminates normally with the fixed iteration-limit string. -/
theorem processQuery_iteration_ceiling :
    (∀ (σ : Type) (oracle : List Message → OracleResponse)
        (invoke : σ → ToolUseBlock → σ × Envelope) (env : σ) (q : String),
        (processQuery oracle invoke env q).oracleCalls ≤ 10)
    ∧ (∀ (σ : Type) (oracle : List Message → OracleResponse)
        (invoke : σ → ToolUseBlock → σ × Envelope) (env : σ) (q : String),
        (∀ ms, (oracle ms).stop_reason = StopReason.toolUse) →
        (processQuery oracle invoke env q).result = "(reached max iterations)"
        ∧ (processQuery oracle invoke env q).oracleCalls = 10) := by
  constructor
  · intro σ oracle invoke env q
    exact processQueryAux_calls_le oracle invoke MAX_ITERATIONS env _
  · intro σ oracle invoke env q h
    exact processQueryAux_allToolUse oracle invoke h MAX_ITERATIONS env _

/-- Claim C4 witness: a mocked oracle that always requests a tool drives
the loop to the fixed iteration-limit string after exactly 10 calls. -/
theorem processQuery_iteration_ceiling_witness :
    (processQuery constToolOracle unitInvoke () "list my files").result =
      "(reached max iterations)"
    ∧ (processQuery constToolOracle unitInvoke () "list my files").oracleCalls = 10 :=
  processQuery_iteration_ceiling.2 Unit constToolOracle unitInvoke () "list my files"
    (fun _ => rfl)

/-- Claim C6: whenever the oracle's response carries the end
stop-condition, the loop returns the joined text segments of exactly that
response, with the fixed placeholder replacing an empty join, and
performs no further oracle call. -/
theorem processQuery_end_turn_text :
    ∀ (σ : Type) (oracle : List Message → OracleResponse)
      (invoke : σ → ToolUseBlock → σ × Envelope) (env : σ) (ms : List Message) (n : Nat),
      (oracle ms).stop_reason = StopReason.endTurn →
      processQueryAux oracle invoke (n + 1) env ms =
        LoopOut.mk (joinTextOr (textBlocksOf (oracle ms).content) "(no text response)")
          ms 1 env := by
  intro σ oracle invoke env ms n h
  simp [processQueryAux, h]

/-- The transcript after the first round of the two-turn example
conversation. -/
def duneTranscript : List Message :=
  [Message.userText "Add Dune to the books table",
   Message.assistantTurn [ContentBlock.toolUse duneRequest],
   Message.toolResults
     [mkToolResult duneRequest
       (Envelope.mk [Seg.mk "text" (some "changes 1 lastInsertRowid 9")] false)]]

/-- Claim C6 witness: in the two-turn example conversation the final
end-turn response text "Added Dune." is returned exactly. -/
theorem processQuery_end_turn_text_witness :
    (processQueryAux duneOracle duneInvoke (8 + 1) () duneTranscript).result = "Added Dune."
    ∧ (processQuery duneOracle duneInvoke () "Add Dune to the books table").result =
        "Added Dune." := by
  constructor
  · rw [processQuery_end_turn_text Unit duneOracle duneInvoke () duneTranscript 8 (by decide)]
    decide
  · decide

/-- Claim C7 counterexample: for the same response content (no segments
at all), the other-stop branch returns "(unexpected stop)" while the
end branch returns "(no text response)" — the fallbacks differ. -/
theorem other_stop_fallback_differs :
    (processQuery otherEmptyOracle unitInvoke () "hello").result = "(unexpected stop)"
    ∧ (processQuery endEmptyOracle unitInvoke () "hello").result = "(no text response)"
    ∧ (("(unexpected stop)" : String) = "(no text response)") = False := by
  refine ⟨by decide, by decide, by simp⟩

/-- Claim C7 as amended: a response with any stop-condition other than
end or tool-requests returns the joined text segments like the end branch
does — identical text whenever the join is non-empty — but an empty join
falls back to "(unexpected stop)" where the end branch would give
"(no text response)". -/
theorem other_stop_best_effort_text :
    ∀ (σ : Type) (oracle : List Message → OracleResponse)
      (invoke : σ → ToolUseBlock → σ × Envelope) (env : σ) (ms : List Message) (n : Nat),
      (oracle ms).stop_reason = StopReason.other →
      processQueryAux oracle invoke (n + 1) env ms =
        LoopOut.mk (joinTextOr (textBlocksOf (oracle ms).content) "(unexpected stop)")
          ms 1 env
      ∧ (joinWith "\n" (textBlocksOf (oracle ms).content) ≠ "" →
          (processQueryAux oracle invoke (n + 1) env ms).result =
            joinTextOr (textBlocksOf (oracle ms).content) "(no text response)") := by
  intro σ oracle invoke env ms n h
  constructor
  · simp [processQueryAux, h]
  · intro hne
    simp [processQueryAux, h, joinTextOr, hne]

/-- Claim C7 witness: an other-stop response carrying text returns that
text, the same text the end branch would return. -/
theorem other_stop_best_effort_text_witness :
    (processQueryAux otherTextOracle unitInvoke (9 + 1) () [Message.userText "hi"]).result =
      "partial answer" := by
  rw [(other_stop_best_effort_text Unit otherTextOracle unitInvoke ()
    [Message.userText "hi"] 9 (by decide)).1]
  decide
